import Mathlib

/-!
Verification of the core game logic of a Snake game (React/TypeScript).

The definitions below are a shallow embedding of the pure game-state
transition logic found in the repository's `useSnakeGame` hook and its
helpers (`getInitialSnake`, `getRandomEmptyPosition`, `getNextPosition`,
`isOppositeDirection`, `changeDirection`, `moveSnake`, `startGame`) and
the constants module.  Coordinates are modelled as `Int` (JavaScript
numbers holding small integers; they can go negative, e.g. when the head
moves off the board).  The only impure ingredient, `Math.random()`, is
modelled by an explicit `rnd : Nat` parameter whose value modulo the
number of available cells selects the cell — exactly the range of
indices `Math.floor(Math.random() * available.length)` can produce.
A thrown `Error` is modelled by `Option`.
-/

namespace Snake

/-- Grid coordinate pair, from the `Position` type of the source. -/
structure Position where
  x : Int
  y : Int
deriving DecidableEq, Repr

instance : Inhabited Position := ⟨⟨0, 0⟩⟩

/-- The four movement directions, from the `Direction` union type. -/
inductive Direction where
  | UP
  | DOWN
  | LEFT
  | RIGHT
deriving DecidableEq, Repr

/-- Game status, from the `GameStatus` union type. -/
inductive GameStatus where
  | NOT_STARTED
  | PLAYING
  | GAME_OVER
  | WON
deriving DecidableEq, Repr

/-- The aggregate game state, from the `GameState` type. -/
structure GameState where
  snake : List Position
  direction : Direction
  nextDirection : Option Direction
  food : Position
  score : Nat
  status : GameStatus
  boardSize : Nat
deriving DecidableEq, Repr

/-! Constants from `src/constants/game.ts`. -/

def DEFAULT_BOARD_SIZE : Nat := 20

def POINTS_PER_FOOD : Nat := 3

def WINNING_SCORE : Nat := 30

def INITIAL_SNAKE_LENGTH : Nat := 3

/-- `getInitialSnake`: snake segments extending left from the board
center, head first, of length `INITIAL_SNAKE_LENGTH`. -/
def getInitialSnake (boardSize : Nat) : List Position :=
  let center : Int := (boardSize : Int) / 2
  (List.range INITIAL_SNAKE_LENGTH).map (fun (i : Nat) => ⟨center - (i : Int), center⟩)

/-- The board cells in the enumeration order of `getRandomEmptyPosition`
(outer loop over `x`, inner loop over `y`, each from `0` to
`boardSize - 1`). -/
def allCells (boardSize : Nat) : List Position :=
  (List.range boardSize).flatMap (fun (x : Nat) =>
    (List.range boardSize).map (fun (y : Nat) => ⟨(x : Int), (y : Int)⟩))

/-- The `available` array built inside `getRandomEmptyPosition`: all
board cells not occupied by the snake.  The JavaScript code keys the
occupied set by the string `"x,y"`, which is injective on integer
coordinates, so membership in that set is exactly list membership. -/
def availablePositions (boardSize : Nat) (snake : List Position) : List Position :=
  (allCells boardSize).filter (fun p => ¬ p ∈ snake)

/-- `getRandomEmptyPosition`: returns a random empty cell, or fails
(throws, here `none`) when every cell is occupied.  The random index
`Math.floor(Math.random() * available.length)` ranges over
`[0, available.length)`; it is modelled by `rnd % available.length`. -/
def getRandomEmptyPosition (boardSize : Nat) (snake : List Position)
    (rnd : Nat) : Option Position :=
  let available := availablePositions boardSize snake
  if h : available.length = 0 then
    none
  else
    some (available.get ⟨rnd % available.length,
      Nat.mod_lt _ (Nat.pos_of_ne_zero h)⟩)

/-- `getNextPosition`: shift a position by one cell in a direction.
(The source's `default` branch is unreachable: `Direction` has exactly
the four cases.) -/
def getNextPosition (head : Position) (direction : Direction) : Position :=
  match direction with
  | .UP => ⟨head.x, head.y - 1⟩
  | .DOWN => ⟨head.x, head.y + 1⟩
  | .LEFT => ⟨head.x - 1, head.y⟩
  | .RIGHT => ⟨head.x + 1, head.y⟩

/-- `isOppositeDirection`: true exactly for the two vertical and the two
horizontal reversal pairs. -/
def isOppositeDirection (dir1 dir2 : Direction) : Bool :=
  (dir1 = .UP ∧ dir2 = .DOWN) ∨
  (dir1 = .DOWN ∧ dir2 = .UP) ∨
  (dir1 = .LEFT ∧ dir2 = .RIGHT) ∨
  (dir1 = .RIGHT ∧ dir2 = .LEFT)

/-- The expression `prev.nextDirection || prev.direction`, shared by
`changeDirection` and `moveSnake`: the queued direction when present,
else the active one. -/
def effectiveDirection (s : GameState) : Direction :=
  s.nextDirection.getD s.direction

/-- `changeDirection`: queue a direction change.  No-op unless PLAYING;
a request opposite to the pending intent (queued direction if any, else
the current direction) is rejected. -/
def changeDirection (prev : GameState) (newDirection : Direction) : GameState :=
  if prev.status ≠ .PLAYING then prev
  else if isOppositeDirection (effectiveDirection prev) newDirection then prev
  else { prev with nextDirection := some newDirection }

/-- `moveSnake`: the per-tick transition.  `boardSize` is the hook's
closure parameter; `rnd` models the random choice made if food
respawns this tick. -/
def moveSnake (boardSize : Nat) (rnd : Nat) (prev : GameState) : GameState :=
  if prev.status ≠ .PLAYING then prev
  else
    let currentDirection := effectiveDirection prev
    let newState : GameState :=
      { prev with direction := currentDirection, nextDirection := none }
    let head := prev.snake.headI
    let newHead := getNextPosition head currentDirection
    if newHead.x < 0 ∨ (boardSize : Int) ≤ newHead.x ∨
        newHead.y < 0 ∨ (boardSize : Int) ≤ newHead.y then
      { newState with status := .GAME_OVER }
    else
      let ateFood := newHead = prev.food
      let bodyToCheck := if ateFood then prev.snake else prev.snake.dropLast
      if newHead ∈ bodyToCheck then
        { newState with status := .GAME_OVER }
      else
        let newSnake :=
          if ateFood then newHead :: prev.snake else newHead :: prev.snake.dropLast
        if ateFood then
          let newScore := prev.score + POINTS_PER_FOOD
          if WINNING_SCORE ≤ newScore then
            { newState with snake := newSnake, score := newScore, status := .WON }
          else
            match getRandomEmptyPosition boardSize newSnake rnd with
            | none =>
                { newState with snake := newSnake, score := newScore, status := .WON }
            | some newFood =>
                { newState with snake := newSnake, food := newFood, score := newScore }
        else
          { newState with snake := newSnake }

/-- `startGame`: reinitialize every field, status PLAYING.  The `rnd`
parameter models the random food placement; `none` models the
initializer throwing (no empty cell for food). -/
def startGame (boardSize : Nat) (rnd : Nat) : Option GameState :=
  let initialSnake := getInitialSnake boardSize
  match getRandomEmptyPosition boardSize initialSnake rnd with
  | none => none
  | some food =>
      some { snake := initialSnake
             direction := .RIGHT
             nextDirection := none
             food := food
             score := 0
             status := .PLAYING
             boardSize := boardSize }

/-- The `useState` initializer of `useSnakeGame`: identical to
`startGame` except that the status is NOT_STARTED. -/
def initState (boardSize : Nat) (rnd : Nat) : Option GameState :=
  let initialSnake := getInitialSnake boardSize
  match getRandomEmptyPosition boardSize initialSnake rnd with
  | none => none
  | some food =>
      some { snake := initialSnake
             direction := .RIGHT
             nextDirection := none
             food := food
             score := 0
             status := .NOT_STARTED
             boardSize := boardSize }

/-- Spec-side geometry helper `inBounds(pos, boardSize)`: true iff
`0 ≤ x < boardSize` and `0 ≤ y < boardSize`.  The source writes its
negation inline as the wall check of `moveSnake`. -/
def inBounds (p : Position) (boardSize : Nat) : Prop :=
  0 ≤ p.x ∧ p.x < (boardSize : Int) ∧ 0 ≤ p.y ∧ p.y < (boardSize : Int)

instance (p : Position) (n : Nat) : Decidable (inBounds p n) :=
  inferInstanceAs (Decidable (_ ∧ _ ∧ _ ∧ _))

/-- The 180-degree reversal of a direction (the spec's
`opposite(direction)`). -/
def opposite : Direction → Direction
  | .UP => .DOWN
  | .DOWN => .UP
  | .LEFT => .RIGHT
  | .RIGHT => .LEFT

/-- The head position the snake is about to move to: the source's
`newHead = getNextPosition(prev.snake[0], currentDirection)`. -/
def newHeadOf (s : GameState) : Position :=
  getNextPosition s.snake.headI (effectiveDirection s)

/-! ### Basic lemmas about the helpers -/

theorem not_inBounds_iff (p : Position) (n : Nat) :
    ¬ inBounds p n ↔
      (p.x < 0 ∨ (n : Int) ≤ p.x ∨ p.y < 0 ∨ (n : Int) ≤ p.y) := by
  unfold inBounds
  omega

theorem isOppositeDirection_opposite (d : Direction) :
    isOppositeDirection d (opposite d) = true := by
  cases d <;> rfl

/-! ### Branch lemmas for `moveSnake`

One lemma per execution path of the source's tick function, each giving
the result state explicitly. -/

theorem moveSnake_not_playing (boardSize rnd : Nat) (s : GameState)
    (h : s.status ≠ .PLAYING) :
    moveSnake boardSize rnd s = s := by
  unfold moveSnake
  rw [if_pos h]

theorem moveSnake_wall (boardSize rnd : Nat) (s : GameState)
    (hp : s.status = .PLAYING)
    (hw : ¬ inBounds (newHeadOf s) boardSize) :
    moveSnake boardSize rnd s =
      { s with direction := effectiveDirection s
               nextDirection := none
               status := .GAME_OVER } := by
  rw [not_inBounds_iff] at hw
  simp only [moveSnake]
  rw [if_neg (fun hne => hne hp)]
  simp only [newHeadOf] at hw
  rw [if_pos hw]

theorem moveSnake_self_collision (boardSize rnd : Nat) (s : GameState)
    (hp : s.status = .PLAYING)
    (hin : inBounds (newHeadOf s) boardSize)
    (hcol : newHeadOf s ∈
      (if newHeadOf s = s.food then s.snake else s.snake.dropLast)) :
    moveSnake boardSize rnd s =
      { s with direction := effectiveDirection s
               nextDirection := none
               status := .GAME_OVER } := by
  have hw := (not_inBounds_iff (newHeadOf s) boardSize).not.mp
    (not_not_intro hin)
  simp only [moveSnake]
  rw [if_neg (fun hne => hne hp)]
  simp only [newHeadOf] at hw hcol
  rw [if_neg hw, if_pos hcol]

theorem moveSnake_no_eat (boardSize rnd : Nat) (s : GameState)
    (hp : s.status = .PLAYING)
    (hin : inBounds (newHeadOf s) boardSize)
    (hfood : newHeadOf s ≠ s.food)
    (hcol : newHeadOf s ∉ s.snake.dropLast) :
    moveSnake boardSize rnd s =
      { s with direction := effectiveDirection s
               nextDirection := none
               snake := newHeadOf s :: s.snake.dropLast } := by
  have hw := (not_inBounds_iff (newHeadOf s) boardSize).not.mp
    (not_not_intro hin)
  simp only [moveSnake]
  rw [if_neg (fun hne => hne hp)]
  simp only [newHeadOf] at hw hfood hcol
  rw [if_neg hw, if_neg hfood, if_neg hfood, if_neg hcol, if_neg hfood]
  rfl

theorem moveSnake_eat_won (boardSize rnd : Nat) (s : GameState)
    (hp : s.status = .PLAYING)
    (hin : inBounds (newHeadOf s) boardSize)
    (hfood : newHeadOf s = s.food)
    (hcol : newHeadOf s ∉ s.snake)
    (hwin : WINNING_SCORE ≤ s.score + POINTS_PER_FOOD) :
    moveSnake boardSize rnd s =
      { s with direction := effectiveDirection s
               nextDirection := none
               snake := newHeadOf s :: s.snake
               score := s.score + POINTS_PER_FOOD
               status := .WON } := by
  have hw := (not_inBounds_iff (newHeadOf s) boardSize).not.mp
    (not_not_intro hin)
  simp only [moveSnake]
  rw [if_neg (fun hne => hne hp)]
  simp only [newHeadOf] at hw hfood hcol
  rw [if_neg hw, if_pos hfood, if_pos hfood, if_neg hcol, if_pos hfood,
    if_pos hwin]
  rfl

theorem moveSnake_eat_board_full (boardSize rnd : Nat) (s : GameState)
    (hp : s.status = .PLAYING)
    (hin : inBounds (newHeadOf s) boardSize)
    (hfood : newHeadOf s = s.food)
    (hcol : newHeadOf s ∉ s.snake)
    (hwin : ¬ WINNING_SCORE ≤ s.score + POINTS_PER_FOOD)
    (hfull : getRandomEmptyPosition boardSize (newHeadOf s :: s.snake) rnd = none) :
    moveSnake boardSize rnd s =
      { s with direction := effectiveDirection s
               nextDirection := none
               snake := newHeadOf s :: s.snake
               score := s.score + POINTS_PER_FOOD
               status := .WON } := by
  have hw := (not_inBounds_iff (newHeadOf s) boardSize).not.mp
    (not_not_intro hin)
  simp only [moveSnake]
  rw [if_neg (fun hne => hne hp)]
  simp only [newHeadOf] at hw hfood hcol hfull
  rw [if_neg hw, if_pos hfood, if_pos hfood, if_neg hcol, if_pos hfood,
    if_neg hwin, hfull]
  rfl

theorem moveSnake_eat_respawn (boardSize rnd : Nat) (s : GameState)
    (f : Position)
    (hp : s.status = .PLAYING)
    (hin : inBounds (newHeadOf s) boardSize)
    (hfood : newHeadOf s = s.food)
    (hcol : newHeadOf s ∉ s.snake)
    (hwin : ¬ WINNING_SCORE ≤ s.score + POINTS_PER_FOOD)
    (hresp : getRandomEmptyPosition boardSize (newHeadOf s :: s.snake) rnd = some f) :
    moveSnake boardSize rnd s =
      { s with direction := effectiveDirection s
               nextDirection := none
               snake := newHeadOf s :: s.snake
               food := f
               score := s.score + POINTS_PER_FOOD } := by
  have hw := (not_inBounds_iff (newHeadOf s) boardSize).not.mp
    (not_not_intro hin)
  simp only [moveSnake]
  rw [if_neg (fun hne => hne hp)]
  simp only [newHeadOf] at hw hfood hcol hresp
  rw [if_neg hw, if_pos hfood, if_pos hfood, if_neg hcol, if_pos hfood,
    if_neg hwin, hresp]
  rfl

/-! ### The empty-cell selector -/

theorem mem_allCells {boardSize : Nat} {p : Position} :
    p ∈ allCells boardSize ↔ inBounds p boardSize := by
  obtain ⟨px, py⟩ := p
  constructor
  · intro h
    obtain ⟨lx, hlx, hmem⟩ := List.mem_flatMap.mp h
    obtain ⟨ly, hly, heq⟩ := List.mem_map.mp hmem
    rw [List.mem_range] at hlx hly
    injection heq with h1 h2
    unfold inBounds
    dsimp only
    omega
  · intro h
    unfold inBounds at h
    dsimp only at h
    obtain ⟨hx0, hxn, hy0, hyn⟩ := h
    apply List.mem_flatMap.mpr
    refine ⟨px.toNat, List.mem_range.mpr (by omega), ?_⟩
    apply List.mem_map.mpr
    refine ⟨py.toNat, List.mem_range.mpr (by omega), ?_⟩
    congr 1 <;> omega

theorem availablePositions_eq_nil_iff {boardSize : Nat} {snake : List Position} :
    availablePositions boardSize snake = [] ↔
      ∀ p ∈ allCells boardSize, p ∈ snake := by
  unfold availablePositions
  rw [List.filter_eq_nil_iff]
  simp

theorem getRandomEmptyPosition_eq_none_iff {boardSize rnd : Nat}
    {snake : List Position} :
    getRandomEmptyPosition boardSize snake rnd = none ↔
      ∀ p ∈ allCells boardSize, p ∈ snake := by
  rw [← @availablePositions_eq_nil_iff boardSize snake]
  simp only [getRandomEmptyPosition]
  split
  · rename_i h
    simp [List.length_eq_zero.mp h]
  · rename_i h
    have hne : availablePositions boardSize snake ≠ [] := by
      intro he
      exact h (by rw [he]; rfl)
    simp [hne]

theorem getRandomEmptyPosition_some_spec {boardSize rnd : Nat}
    {snake : List Position} {p : Position}
    (h : getRandomEmptyPosition boardSize snake rnd = some p) :
    p ∈ allCells boardSize ∧ p ∉ snake := by
  simp only [getRandomEmptyPosition] at h
  split at h
  · cases h
  · have hp : p ∈ availablePositions boardSize snake := by
      cases h
      exact List.get_mem _ _ _
    have hmem := List.mem_filter.mp hp
    refine ⟨hmem.1, ?_⟩
    simpa using hmem.2

/-! ### Claim theorems -/

/-- C1: for every PLAYING state whose head's next position in the
effective direction is out of bounds on either axis, `moveSnake` yields
GAME_OVER with snake, score and food unchanged — regardless of the food
and self-collision situation (the wall check fires first). -/
theorem tick_wall_game_over (boardSize rnd : Nat) (s : GameState)
    (hp : s.status = .PLAYING)
    (hw : ¬ inBounds (newHeadOf s) boardSize) :
    (moveSnake boardSize rnd s).status = .GAME_OVER ∧
    (moveSnake boardSize rnd s).snake = s.snake ∧
    (moveSnake boardSize rnd s).score = s.score ∧
    (moveSnake boardSize rnd s).food = s.food := by
  rw [moveSnake_wall boardSize rnd s hp hw]
  exact ⟨rfl, rfl, rfl, rfl⟩

/-- Witness for C1: the spec's scenario A — boardSize 5, snake
`[(4,2),(3,2)]` moving RIGHT hits the wall at `x = 5`. -/
theorem tick_wall_game_over_witness :
    (⟨[⟨4,2⟩,⟨3,2⟩], .RIGHT, none, ⟨0,0⟩, 0, .PLAYING, 5⟩ : GameState).status
        = .PLAYING ∧
    ¬ inBounds (newHeadOf ⟨[⟨4,2⟩,⟨3,2⟩], .RIGHT, none, ⟨0,0⟩, 0, .PLAYING, 5⟩) 5 ∧
    ((moveSnake 5 0 ⟨[⟨4,2⟩,⟨3,2⟩], .RIGHT, none, ⟨0,0⟩, 0, .PLAYING, 5⟩).status
        = .GAME_OVER ∧
     (moveSnake 5 0 ⟨[⟨4,2⟩,⟨3,2⟩], .RIGHT, none, ⟨0,0⟩, 0, .PLAYING, 5⟩).snake
        = [⟨4,2⟩,⟨3,2⟩] ∧
     (moveSnake 5 0 ⟨[⟨4,2⟩,⟨3,2⟩], .RIGHT, none, ⟨0,0⟩, 0, .PLAYING, 5⟩).score
        = 0 ∧
     (moveSnake 5 0 ⟨[⟨4,2⟩,⟨3,2⟩], .RIGHT, none, ⟨0,0⟩, 0, .PLAYING, 5⟩).food
        = ⟨0,0⟩) :=
  ⟨rfl, by decide,
    tick_wall_game_over 5 0 ⟨[⟨4,2⟩,⟨3,2⟩], .RIGHT, none, ⟨0,0⟩, 0, .PLAYING, 5⟩
      rfl (by decide)⟩

/-- C2: for every PLAYING state with in-bounds new head, if the new head
lies in the snake minus its tail (when the head misses the food) or in
the full snake (when the head hits the food), `moveSnake` yields
GAME_OVER with snake, score and food unchanged. -/
theorem tick_self_collision_game_over (boardSize rnd : Nat) (s : GameState)
    (hp : s.status = .PLAYING)
    (hin : inBounds (newHeadOf s) boardSize)
    (hcol : newHeadOf s ∈
      (if newHeadOf s = s.food then s.snake else s.snake.dropLast)) :
    (moveSnake boardSize rnd s).status = .GAME_OVER ∧
    (moveSnake boardSize rnd s).snake = s.snake ∧
    (moveSnake boardSize rnd s).score = s.score ∧
    (moveSnake boardSize rnd s).food = s.food := by
  rw [moveSnake_self_collision boardSize rnd s hp hin hcol]
  exact ⟨rfl, rfl, rfl, rfl⟩

/-- Witness for C2: the head at `(5,5)` moves DOWN into `(5,6)`, a
non-tail body segment, with the food elsewhere. -/
theorem tick_self_collision_game_over_witness :
    (⟨[⟨5,5⟩,⟨4,5⟩,⟨4,6⟩,⟨5,6⟩,⟨6,6⟩], .DOWN, none, ⟨0,0⟩, 0, .PLAYING, 20⟩
        : GameState).status = .PLAYING ∧
    inBounds (newHeadOf
      ⟨[⟨5,5⟩,⟨4,5⟩,⟨4,6⟩,⟨5,6⟩,⟨6,6⟩], .DOWN, none, ⟨0,0⟩, 0, .PLAYING, 20⟩) 20 ∧
    newHeadOf ⟨[⟨5,5⟩,⟨4,5⟩,⟨4,6⟩,⟨5,6⟩,⟨6,6⟩], .DOWN, none, ⟨0,0⟩, 0, .PLAYING, 20⟩ ∈
      (if newHeadOf ⟨[⟨5,5⟩,⟨4,5⟩,⟨4,6⟩,⟨5,6⟩,⟨6,6⟩], .DOWN, none, ⟨0,0⟩, 0,
            .PLAYING, 20⟩ =
          (⟨0,0⟩ : Position) then
        ([⟨5,5⟩,⟨4,5⟩,⟨4,6⟩,⟨5,6⟩,⟨6,6⟩] : List Position)
      else ([⟨5,5⟩,⟨4,5⟩,⟨4,6⟩,⟨5,6⟩,⟨6,6⟩] : List Position).dropLast) ∧
    (moveSnake 20 0
      ⟨[⟨5,5⟩,⟨4,5⟩,⟨4,6⟩,⟨5,6⟩,⟨6,6⟩], .DOWN, none, ⟨0,0⟩, 0, .PLAYING, 20⟩).status
      = .GAME_OVER :=
  ⟨rfl, by decide, by decide,
    (tick_self_collision_game_over 20 0
      ⟨[⟨5,5⟩,⟨4,5⟩,⟨4,6⟩,⟨5,6⟩,⟨6,6⟩], .DOWN, none, ⟨0,0⟩, 0, .PLAYING, 20⟩
      rfl (by decide) (by decide)).1⟩

/-- C3: growth law — for a PLAYING state (nonempty snake, as the data
model guarantees) whose in-bounds new head avoids the applicable body
set: if the new head equals the food, the resulting snake is the new
head prepended to the whole previous snake (one longer, tail retained)
and the score grows by exactly `POINTS_PER_FOOD`; otherwise snake length
and score are unchanged. -/
theorem tick_growth_law (boardSize rnd : Nat) (s : GameState)
    (hp : s.status = .PLAYING)
    (hne : s.snake ≠ [])
    (hin : inBounds (newHeadOf s) boardSize)
    (hcol : newHeadOf s ∉
      (if newHeadOf s = s.food then s.snake else s.snake.dropLast)) :
    (newHeadOf s = s.food →
      (moveSnake boardSize rnd s).snake = newHeadOf s :: s.snake ∧
      (moveSnake boardSize rnd s).snake.length = s.snake.length + 1 ∧
      (moveSnake boardSize rnd s).score = s.score + POINTS_PER_FOOD) ∧
    (newHeadOf s ≠ s.food →
      (moveSnake boardSize rnd s).snake.length = s.snake.length ∧
      (moveSnake boardSize rnd s).score = s.score) := by
  constructor
  · intro hf
    rw [if_pos hf] at hcol
    by_cases hwin : WINNING_SCORE ≤ s.score + POINTS_PER_FOOD
    · rw [moveSnake_eat_won boardSize rnd s hp hin hf hcol hwin]
      exact ⟨rfl, by simp, rfl⟩
    · cases hsel : getRandomEmptyPosition boardSize (newHeadOf s :: s.snake) rnd with
      | none =>
          rw [moveSnake_eat_board_full boardSize rnd s hp hin hf hcol hwin hsel]
          exact ⟨rfl, by simp, rfl⟩
      | some f =>
          rw [moveSnake_eat_respawn boardSize rnd s f hp hin hf hcol hwin hsel]
          exact ⟨rfl, by simp, rfl⟩
  · intro hf
    rw [if_neg hf] at hcol
    rw [moveSnake_no_eat boardSize rnd s hp hin hf hcol]
    refine ⟨?_, rfl⟩
    have hlen : s.snake.dropLast.length = s.snake.length - 1 :=
      List.length_dropLast s.snake
    have hpos : 0 < s.snake.length := List.length_pos.mpr hne
    simp only [List.length_cons, hlen]
    omega

/-- Witness for C3: the spec's scenario B — head `(10,10)` moving RIGHT
onto the food at `(11,10)` grows the snake to length 4 and scores 3. -/
theorem tick_growth_law_witness :
    (⟨[⟨10,10⟩,⟨9,10⟩,⟨8,10⟩], .RIGHT, none, ⟨11,10⟩, 0, .PLAYING, 20⟩
        : GameState).status = .PLAYING ∧
    ([⟨10,10⟩,⟨9,10⟩,⟨8,10⟩] : List Position) ≠ [] ∧
    inBounds (newHeadOf
      ⟨[⟨10,10⟩,⟨9,10⟩,⟨8,10⟩], .RIGHT, none, ⟨11,10⟩, 0, .PLAYING, 20⟩) 20 ∧
    newHeadOf ⟨[⟨10,10⟩,⟨9,10⟩,⟨8,10⟩], .RIGHT, none, ⟨11,10⟩, 0, .PLAYING, 20⟩ ∉
      (if newHeadOf ⟨[⟨10,10⟩,⟨9,10⟩,⟨8,10⟩], .RIGHT, none, ⟨11,10⟩, 0,
            .PLAYING, 20⟩ = (⟨11,10⟩ : Position) then
        ([⟨10,10⟩,⟨9,10⟩,⟨8,10⟩] : List Position)
      else ([⟨10,10⟩,⟨9,10⟩,⟨8,10⟩] : List Position).dropLast) ∧
    ((newHeadOf ⟨[⟨10,10⟩,⟨9,10⟩,⟨8,10⟩], .RIGHT, none, ⟨11,10⟩, 0, .PLAYING, 20⟩
        = (⟨11,10⟩ : Position) →
      (moveSnake 20 0
        ⟨[⟨10,10⟩,⟨9,10⟩,⟨8,10⟩], .RIGHT, none, ⟨11,10⟩, 0, .PLAYING, 20⟩).snake
        = newHeadOf ⟨[⟨10,10⟩,⟨9,10⟩,⟨8,10⟩], .RIGHT, none, ⟨11,10⟩, 0,
            .PLAYING, 20⟩ :: [⟨10,10⟩,⟨9,10⟩,⟨8,10⟩] ∧
      (moveSnake 20 0
        ⟨[⟨10,10⟩,⟨9,10⟩,⟨8,10⟩], .RIGHT, none, ⟨11,10⟩, 0, .PLAYING, 20⟩).snake.length
        = ([⟨10,10⟩,⟨9,10⟩,⟨8,10⟩] : List Position).length + 1 ∧
      (moveSnake 20 0
        ⟨[⟨10,10⟩,⟨9,10⟩,⟨8,10⟩], .RIGHT, none, ⟨11,10⟩, 0, .PLAYING, 20⟩).score
        = 0 + POINTS_PER_FOOD)) :=
  ⟨rfl, by decide, by decide, by decide,
    (tick_growth_law 20 0
      ⟨[⟨10,10⟩,⟨9,10⟩,⟨8,10⟩], .RIGHT, none, ⟨11,10⟩, 0, .PLAYING, 20⟩
      rfl (by decide) (by decide) (by decide)).1⟩

/-- C4: win law — a food-eating tick whose new score reaches
`WINNING_SCORE` yields WON with the exact incremented score (no
clamping) and the food field untouched. -/
theorem tick_win_law (boardSize rnd : Nat) (s : GameState)
    (hp : s.status = .PLAYING)
    (hin : inBounds (newHeadOf s) boardSize)
    (hfood : newHeadOf s = s.food)
    (hcol : newHeadOf s ∉ s.snake)
    (hwin : WINNING_SCORE ≤ s.score + POINTS_PER_FOOD) :
    (moveSnake boardSize rnd s).status = .WON ∧
    (moveSnake boardSize rnd s).score = s.score + POINTS_PER_FOOD ∧
    (moveSnake boardSize rnd s).food = s.food := by
  rw [moveSnake_eat_won boardSize rnd s hp hin hfood hcol hwin]
  exact ⟨rfl, rfl, rfl⟩

/-- Witness for C4: the spec's scenario C — score 27, food adjacent,
tick yields WON with score exactly 30. -/
theorem tick_win_law_witness :
    (⟨[⟨10,10⟩,⟨9,10⟩,⟨8,10⟩], .RIGHT, none, ⟨11,10⟩, 27, .PLAYING, 20⟩
        : GameState).status = .PLAYING ∧
    inBounds (newHeadOf
      ⟨[⟨10,10⟩,⟨9,10⟩,⟨8,10⟩], .RIGHT, none, ⟨11,10⟩, 27, .PLAYING, 20⟩) 20 ∧
    newHeadOf ⟨[⟨10,10⟩,⟨9,10⟩,⟨8,10⟩], .RIGHT, none, ⟨11,10⟩, 27, .PLAYING, 20⟩
      = (⟨11,10⟩ : Position) ∧
    newHeadOf ⟨[⟨10,10⟩,⟨9,10⟩,⟨8,10⟩], .RIGHT, none, ⟨11,10⟩, 27, .PLAYING, 20⟩
      ∉ ([⟨10,10⟩,⟨9,10⟩,⟨8,10⟩] : List Position) ∧
    WINNING_SCORE ≤ 27 + POINTS_PER_FOOD ∧
    ((moveSnake 20 0
        ⟨[⟨10,10⟩,⟨9,10⟩,⟨8,10⟩], .RIGHT, none, ⟨11,10⟩, 27, .PLAYING, 20⟩).status
        = .WON ∧
     (moveSnake 20 0
        ⟨[⟨10,10⟩,⟨9,10⟩,⟨8,10⟩], .RIGHT, none, ⟨11,10⟩, 27, .PLAYING, 20⟩).score
        = 27 + POINTS_PER_FOOD ∧
     (moveSnake 20 0
        ⟨[⟨10,10⟩,⟨9,10⟩,⟨8,10⟩], .RIGHT, none, ⟨11,10⟩, 27, .PLAYING, 20⟩).food
        = ⟨11,10⟩) :=
  ⟨rfl, by decide, by decide, by decide, by decide,
    tick_win_law 20 0
      ⟨[⟨10,10⟩,⟨9,10⟩,⟨8,10⟩], .RIGHT, none, ⟨11,10⟩, 27, .PLAYING, 20⟩
      rfl (by decide) (by decide) (by decide) (by decide)⟩

/-- C5: direction-reversal law — requesting the direction opposite to
the reference direction (the queued direction if present, else the
active one) leaves the state, and in particular `nextDirection`,
completely unchanged, for every state. -/
theorem requestDirection_reversal_noop (s : GameState) :
    changeDirection s (opposite (effectiveDirection s)) = s := by
  unfold changeDirection
  split
  · rfl
  · rw [if_pos (isOppositeDirection_opposite (effectiveDirection s))]

/-- On any PLAYING state, the tick adopts the effective direction and
clears the queued one, on every exit path of `moveSnake`. -/
theorem moveSnake_direction_resolution (boardSize rnd : Nat) (s : GameState)
    (hp : s.status = .PLAYING) :
    (moveSnake boardSize rnd s).direction = effectiveDirection s ∧
    (moveSnake boardSize rnd s).nextDirection = none := by
  by_cases hin : inBounds (newHeadOf s) boardSize
  · by_cases hcol : newHeadOf s ∈
        (if newHeadOf s = s.food then s.snake else s.snake.dropLast)
    · rw [moveSnake_self_collision boardSize rnd s hp hin hcol]
      exact ⟨rfl, rfl⟩
    · by_cases hf : newHeadOf s = s.food
      · rw [if_pos hf] at hcol
        by_cases hwin : WINNING_SCORE ≤ s.score + POINTS_PER_FOOD
        · rw [moveSnake_eat_won boardSize rnd s hp hin hf hcol hwin]
          exact ⟨rfl, rfl⟩
        · cases hsel : getRandomEmptyPosition boardSize
              (newHeadOf s :: s.snake) rnd with
          | none =>
              rw [moveSnake_eat_board_full boardSize rnd s hp hin hf hcol
                hwin hsel]
              exact ⟨rfl, rfl⟩
          | some f =>
              rw [moveSnake_eat_respawn boardSize rnd s f hp hin hf hcol
                hwin hsel]
              exact ⟨rfl, rfl⟩
      · rw [if_neg hf] at hcol
        rw [moveSnake_no_eat boardSize rnd s hp hin hf hcol]
        exact ⟨rfl, rfl⟩
  · rw [moveSnake_wall boardSize rnd s hp hin]
    exact ⟨rfl, rfl⟩

/-- C6: queuing law — an accepted `changeDirection` call only sets
`nextDirection`; the next tick then adopts the queued direction as the
active one and clears the queue, whatever the tick's outcome. -/
theorem requestDirection_queue_law (boardSize rnd : Nat) (s : GameState)
    (d : Direction)
    (hp : s.status = .PLAYING)
    (hacc : isOppositeDirection (effectiveDirection s) d = false) :
    changeDirection s d = { s with nextDirection := some d } ∧
    (moveSnake boardSize rnd (changeDirection s d)).direction = d ∧
    (moveSnake boardSize rnd (changeDirection s d)).nextDirection = none := by
  have h1 : changeDirection s d = { s with nextDirection := some d } := by
    unfold changeDirection
    rw [if_neg (fun hne => hne hp), if_neg (by simp [hacc])]
  have hp' : (changeDirection s d).status = .PLAYING := by
    rw [h1]
    exact hp
  have heff : effectiveDirection (changeDirection s d) = d := by
    rw [h1]
    rfl
  obtain ⟨hdir, hnext⟩ := moveSnake_direction_resolution boardSize rnd _ hp'
  exact ⟨h1, by rw [hdir, heff], hnext⟩

/-- Witness for C6: queuing UP while moving RIGHT is accepted; the
following tick (which here ends in GAME_OVER at the top wall) adopts UP
and clears the queue. -/
theorem requestDirection_queue_law_witness :
    (⟨[⟨2,0⟩,⟨2,1⟩], .RIGHT, none, ⟨0,0⟩, 0, .PLAYING, 5⟩ : GameState).status
        = .PLAYING ∧
    isOppositeDirection
      (effectiveDirection ⟨[⟨2,0⟩,⟨2,1⟩], .RIGHT, none, ⟨0,0⟩, 0, .PLAYING, 5⟩)
      .UP = false ∧
    (changeDirection ⟨[⟨2,0⟩,⟨2,1⟩], .RIGHT, none, ⟨0,0⟩, 0, .PLAYING, 5⟩ .UP
        = ⟨[⟨2,0⟩,⟨2,1⟩], .RIGHT, some .UP, ⟨0,0⟩, 0, .PLAYING, 5⟩ ∧
     (moveSnake 5 0
        (changeDirection ⟨[⟨2,0⟩,⟨2,1⟩], .RIGHT, none, ⟨0,0⟩, 0, .PLAYING, 5⟩
          .UP)).direction = .UP ∧
     (moveSnake 5 0
        (changeDirection ⟨[⟨2,0⟩,⟨2,1⟩], .RIGHT, none, ⟨0,0⟩, 0, .PLAYING, 5⟩
          .UP)).nextDirection = none) :=
  ⟨rfl, by decide,
    requestDirection_queue_law 5 0
      ⟨[⟨2,0⟩,⟨2,1⟩], .RIGHT, none, ⟨0,0⟩, 0, .PLAYING, 5⟩ .UP rfl (by decide)⟩

/-- C7: the empty-cell selector fails exactly when the snake occupies
every cell of the grid, and otherwise only produces unoccupied cells;
when that failure happens during the food respawn of a tick, the tick
ends WON with the moved, grown snake and the incremented score instead
of surfacing an error. -/
theorem board_full_becomes_won (boardSize rnd : Nat) (s : GameState)
    (hp : s.status = .PLAYING)
    (hin : inBounds (newHeadOf s) boardSize)
    (hfood : newHeadOf s = s.food)
    (hcol : newHeadOf s ∉ s.snake)
    (hbelow : s.score + POINTS_PER_FOOD < WINNING_SCORE)
    (hfull : getRandomEmptyPosition boardSize (newHeadOf s :: s.snake) rnd
      = none) :
    (∀ (bs r : Nat) (body : List Position),
      (getRandomEmptyPosition bs body r = none ↔
        ∀ p ∈ allCells bs, p ∈ body) ∧
      (∀ q, getRandomEmptyPosition bs body r = some q →
        q ∈ allCells bs ∧ q ∉ body)) ∧
    (moveSnake boardSize rnd s).status = .WON ∧
    (moveSnake boardSize rnd s).snake = newHeadOf s :: s.snake ∧
    (moveSnake boardSize rnd s).score = s.score + POINTS_PER_FOOD := by
  refine ⟨fun bs r body =>
    ⟨getRandomEmptyPosition_eq_none_iff,
     fun q hq => getRandomEmptyPosition_some_spec hq⟩, ?_⟩
  rw [moveSnake_eat_board_full boardSize rnd s hp hin hfood hcol
    (by omega) hfull]
  exact ⟨rfl, rfl, rfl⟩

/-- Witness for C7: on a 2×2 board the 3-segment snake eats the last
free cell `(1,1)`; the respawn finds no empty cell and the tick ends
WON with score 3. -/
theorem board_full_becomes_won_witness :
    (⟨[⟨0,1⟩,⟨0,0⟩,⟨1,0⟩], .RIGHT, none, ⟨1,1⟩, 0, .PLAYING, 2⟩
        : GameState).status = .PLAYING ∧
    inBounds (newHeadOf
      ⟨[⟨0,1⟩,⟨0,0⟩,⟨1,0⟩], .RIGHT, none, ⟨1,1⟩, 0, .PLAYING, 2⟩) 2 ∧
    newHeadOf ⟨[⟨0,1⟩,⟨0,0⟩,⟨1,0⟩], .RIGHT, none, ⟨1,1⟩, 0, .PLAYING, 2⟩
      = (⟨1,1⟩ : Position) ∧
    newHeadOf ⟨[⟨0,1⟩,⟨0,0⟩,⟨1,0⟩], .RIGHT, none, ⟨1,1⟩, 0, .PLAYING, 2⟩
      ∉ ([⟨0,1⟩,⟨0,0⟩,⟨1,0⟩] : List Position) ∧
    0 + POINTS_PER_FOOD < WINNING_SCORE ∧
    getRandomEmptyPosition 2
      (newHeadOf ⟨[⟨0,1⟩,⟨0,0⟩,⟨1,0⟩], .RIGHT, none, ⟨1,1⟩, 0, .PLAYING, 2⟩
        :: [⟨0,1⟩,⟨0,0⟩,⟨1,0⟩]) 0 = none ∧
    ((moveSnake 2 0
        ⟨[⟨0,1⟩,⟨0,0⟩,⟨1,0⟩], .RIGHT, none, ⟨1,1⟩, 0, .PLAYING, 2⟩).status
        = .WON ∧
     (moveSnake 2 0
        ⟨[⟨0,1⟩,⟨0,0⟩,⟨1,0⟩], .RIGHT, none, ⟨1,1⟩, 0, .PLAYING, 2⟩).score
        = 0 + POINTS_PER_FOOD) :=
  ⟨rfl, by decide, by decide, by decide, by decide, by decide,
    (board_full_becomes_won 2 0
      ⟨[⟨0,1⟩,⟨0,0⟩,⟨1,0⟩], .RIGHT, none, ⟨1,1⟩, 0, .PLAYING, 2⟩
      rfl (by decide) (by decide) (by decide) (by decide) (by decide)).2.1,
    (board_full_becomes_won 2 0
      ⟨[⟨0,1⟩,⟨0,0⟩,⟨1,0⟩], .RIGHT, none, ⟨1,1⟩, 0, .PLAYING, 2⟩
      rfl (by decide) (by decide) (by decide) (by decide) (by decide)).2.2.2⟩

/-! ### Initialization and the reachability invariant -/

theorem getInitialSnake_nodup (boardSize : Nat) :
    (getInitialSnake boardSize).Nodup := by
  simp only [getInitialSnake]
  refine List.Nodup.map_on ?_ (List.nodup_range _)
  intro i hi j hj hij
  injection hij with hx hy
  omega

theorem getInitialSnake_length (boardSize : Nat) :
    (getInitialSnake boardSize).length = INITIAL_SNAKE_LENGTH := by
  simp [getInitialSnake]

theorem changeDirection_fields (s : GameState) (d : Direction) :
    (changeDirection s d).snake = s.snake ∧
    (changeDirection s d).food = s.food ∧
    (changeDirection s d).score = s.score ∧
    (changeDirection s d).status = s.status := by
  unfold changeDirection
  split
  · exact ⟨rfl, rfl, rfl, rfl⟩
  split
  · exact ⟨rfl, rfl, rfl, rfl⟩
  · exact ⟨rfl, rfl, rfl, rfl⟩

/-- The state invariant the game maintains: score/length accounting
relative to the initial snake, and — while PLAYING — pairwise-distinct
segments with the food off the snake. -/
def ValidState (s : GameState) : Prop :=
  POINTS_PER_FOOD * s.snake.length =
    s.score + POINTS_PER_FOOD * INITIAL_SNAKE_LENGTH ∧
  (s.status = .PLAYING → s.snake.Nodup ∧ s.food ∉ s.snake)

theorem validState_start {boardSize rnd : Nat} {s : GameState}
    (h : startGame boardSize rnd = some s) : ValidState s := by
  simp only [startGame] at h
  cases hsel : getRandomEmptyPosition boardSize (getInitialSnake boardSize) rnd with
  | none => rw [hsel] at h; cases h
  | some f =>
      rw [hsel] at h
      injection h with h
      subst h
      refine ⟨?_, fun _ => ⟨getInitialSnake_nodup boardSize, ?_⟩⟩
      · simp [getInitialSnake_length]
      · exact (getRandomEmptyPosition_some_spec hsel).2

theorem validState_init {boardSize rnd : Nat} {s : GameState}
    (h : initState boardSize rnd = some s) : ValidState s := by
  simp only [initState] at h
  cases hsel : getRandomEmptyPosition boardSize (getInitialSnake boardSize) rnd with
  | none => rw [hsel] at h; cases h
  | some f =>
      rw [hsel] at h
      injection h with h
      subst h
      refine ⟨?_, fun hps => nomatch hps⟩
      simp [getInitialSnake_length]

theorem validState_changeDirection {s : GameState} (d : Direction)
    (hv : ValidState s) : ValidState (changeDirection s d) := by
  obtain ⟨h1, h2, h3, h4⟩ := changeDirection_fields s d
  unfold ValidState at hv ⊢
  rw [h1, h2, h3, h4]
  exact hv

theorem validState_moveSnake (boardSize rnd : Nat) {s : GameState}
    (hv : ValidState s) : ValidState (moveSnake boardSize rnd s) := by
  by_cases hp : s.status = .PLAYING
  case neg =>
    rw [moveSnake_not_playing boardSize rnd s hp]
    exact hv
  case pos =>
  obtain ⟨harith, hplay⟩ := hv
  obtain ⟨hnodup, hfood⟩ := hplay hp
  by_cases hin : inBounds (newHeadOf s) boardSize
  · by_cases hcol : newHeadOf s ∈
        (if newHeadOf s = s.food then s.snake else s.snake.dropLast)
    · rw [moveSnake_self_collision boardSize rnd s hp hin hcol]
      exact ⟨harith, fun hps => nomatch hps⟩
    · by_cases hf : newHeadOf s = s.food
      · rw [if_pos hf] at hcol
        by_cases hwin : WINNING_SCORE ≤ s.score + POINTS_PER_FOOD
        · rw [moveSnake_eat_won boardSize rnd s hp hin hf hcol hwin]
          refine ⟨?_, fun hps => nomatch hps⟩
          simp only [List.length_cons]
          unfold POINTS_PER_FOOD INITIAL_SNAKE_LENGTH at harith ⊢
          omega
        · cases hsel : getRandomEmptyPosition boardSize
              (newHeadOf s :: s.snake) rnd with
          | none =>
              rw [moveSnake_eat_board_full boardSize rnd s hp hin hf hcol
                hwin hsel]
              refine ⟨?_, fun hps => nomatch hps⟩
              simp only [List.length_cons]
              unfold POINTS_PER_FOOD INITIAL_SNAKE_LENGTH at harith ⊢
              omega
          | some f2 =>
              rw [moveSnake_eat_respawn boardSize rnd s f2 hp hin hf hcol
                hwin hsel]
              refine ⟨?_, fun _ => ⟨?_, ?_⟩⟩
              · simp only [List.length_cons]
                unfold POINTS_PER_FOOD INITIAL_SNAKE_LENGTH at harith ⊢
                omega
              · exact List.nodup_cons.mpr ⟨hcol, hnodup⟩
              · exact (getRandomEmptyPosition_some_spec hsel).2
      · rw [if_neg hf] at hcol
        rw [moveSnake_no_eat boardSize rnd s hp hin hf hcol]
        refine ⟨?_, fun _ => ⟨?_, ?_⟩⟩
        · simp only [List.length_cons, List.length_dropLast]
          unfold POINTS_PER_FOOD INITIAL_SNAKE_LENGTH at harith ⊢
          omega
        · exact List.nodup_cons.mpr
            ⟨hcol, List.Nodup.sublist (List.dropLast_sublist s.snake) hnodup⟩
        · intro hmem
          rcases List.mem_cons.mp hmem with he | hd
          · exact hf he.symm
          · exact hfood ((List.dropLast_sublist s.snake).subset hd)
  · rw [moveSnake_wall boardSize rnd s hp hin]
    exact ⟨harith, fun hps => nomatch hps⟩

/-- States reachable from the hook's initializer or from any
(re)start, closed under ticks and direction requests, for every
possible random choice. -/
inductive Reachable (boardSize : Nat) : GameState → Prop where
  | init (rnd : Nat) (s : GameState) (h : initState boardSize rnd = some s) :
      Reachable boardSize s
  | start (rnd : Nat) (s : GameState) (h : startGame boardSize rnd = some s) :
      Reachable boardSize s
  | tick (rnd : Nat) (s : GameState) (h : Reachable boardSize s) :
      Reachable boardSize (moveSnake boardSize rnd s)
  | dir (d : Direction) (s : GameState) (h : Reachable boardSize s) :
      Reachable boardSize (changeDirection s d)

theorem reachable_valid {boardSize : Nat} {s : GameState}
    (h : Reachable boardSize s) : ValidState s := by
  induction h with
  | init rnd s h => exact validState_init h
  | start rnd s h => exact validState_start h
  | tick rnd s h ih => exact validState_moveSnake boardSize rnd ih
  | dir d s h ih => exact validState_changeDirection d ih

/-- C8: in every reachable PLAYING state the snake's segments are
pairwise distinct, the snake is nonempty, and the food is on no
segment; the reachability closure shows each operation preserves
this. -/
theorem reachable_playing_invariant (boardSize : Nat) (s : GameState)
    (hre : Reachable boardSize s) (hp : s.status = .PLAYING) :
    s.snake.Nodup ∧ 1 ≤ s.snake.length ∧ s.food ∉ s.snake := by
  obtain ⟨harith, hplay⟩ := reachable_valid hre
  obtain ⟨hnodup, hfood⟩ := hplay hp
  refine ⟨hnodup, ?_, hfood⟩
  unfold POINTS_PER_FOOD INITIAL_SNAKE_LENGTH at harith
  omega

/-- Witness for C8: the state produced by `startGame 4 0` is reachable,
PLAYING, and satisfies the invariant. -/
theorem reachable_playing_invariant_witness :
    Reachable 4 ⟨[⟨2,2⟩,⟨1,2⟩,⟨0,2⟩], .RIGHT, none, ⟨0,0⟩, 0, .PLAYING, 4⟩ ∧
    (⟨[⟨2,2⟩,⟨1,2⟩,⟨0,2⟩], .RIGHT, none, ⟨0,0⟩, 0, .PLAYING, 4⟩
        : GameState).status = .PLAYING ∧
    (([⟨2,2⟩,⟨1,2⟩,⟨0,2⟩] : List Position).Nodup ∧
     1 ≤ ([⟨2,2⟩,⟨1,2⟩,⟨0,2⟩] : List Position).length ∧
     (⟨0,0⟩ : Position) ∉ ([⟨2,2⟩,⟨1,2⟩,⟨0,2⟩] : List Position)) :=
  have hre : Reachable 4
      ⟨[⟨2,2⟩,⟨1,2⟩,⟨0,2⟩], .RIGHT, none, ⟨0,0⟩, 0, .PLAYING, 4⟩ :=
    Reachable.start 0 _ (by decide)
  ⟨hre, rfl, reachable_playing_invariant 4 _ hre rfl⟩

/-- C10: in every reachable state the score equals `POINTS_PER_FOOD`
times the number of segments gained since the start. -/
theorem score_length_coupling (boardSize : Nat) (s : GameState)
    (hre : Reachable boardSize s) :
    s.score = POINTS_PER_FOOD * (s.snake.length - INITIAL_SNAKE_LENGTH) ∧
    INITIAL_SNAKE_LENGTH ≤ s.snake.length := by
  have harith := (reachable_valid hre).1
  unfold POINTS_PER_FOOD INITIAL_SNAKE_LENGTH at harith ⊢
  omega

/-- Witness for C10: after one food-eating tick from a started game the
score is 3 and the length 4, matching the coupling. -/
theorem score_length_coupling_witness :
    Reachable 4 (moveSnake 4 1
      ⟨[⟨2,2⟩,⟨1,2⟩,⟨0,2⟩], .RIGHT, none, ⟨3,2⟩, 0, .PLAYING, 4⟩) ∧
    ((moveSnake 4 1
        ⟨[⟨2,2⟩,⟨1,2⟩,⟨0,2⟩], .RIGHT, none, ⟨3,2⟩, 0, .PLAYING, 4⟩).score
      = POINTS_PER_FOOD *
        ((moveSnake 4 1
          ⟨[⟨2,2⟩,⟨1,2⟩,⟨0,2⟩], .RIGHT, none, ⟨3,2⟩, 0, .PLAYING, 4⟩).snake.length
          - INITIAL_SNAKE_LENGTH) ∧
     INITIAL_SNAKE_LENGTH ≤
       (moveSnake 4 1
         ⟨[⟨2,2⟩,⟨1,2⟩,⟨0,2⟩], .RIGHT, none, ⟨3,2⟩, 0, .PLAYING, 4⟩).snake.length) :=
  have hre : Reachable 4 (moveSnake 4 1
      ⟨[⟨2,2⟩,⟨1,2⟩,⟨0,2⟩], .RIGHT, none, ⟨3,2⟩, 0, .PLAYING, 4⟩) :=
    Reachable.tick 1 _ (Reachable.start 11 _ (by decide))
  ⟨hre, score_length_coupling 4 _ hre⟩

/-- C9: a board smaller than the initial snake length is NOT rejected
at construction time — with `boardSize = 2 < INITIAL_SNAKE_LENGTH = 3`
both the hook initializer and `startGame` succeed, and the state they
return has the out-of-bounds initial segment `(-1, 1)`. -/
theorem small_board_construction_succeeds :
    2 < INITIAL_SNAKE_LENGTH ∧
    initState 2 0 =
      some ⟨[⟨1,1⟩,⟨0,1⟩,⟨-1,1⟩], .RIGHT, none, ⟨0,0⟩, 0, .NOT_STARTED, 2⟩ ∧
    startGame 2 0 =
      some ⟨[⟨1,1⟩,⟨0,1⟩,⟨-1,1⟩], .RIGHT, none, ⟨0,0⟩, 0, .PLAYING, 2⟩ ∧
    ¬ inBounds ⟨-1, 1⟩ 2 := by
  decide

end Snake
